import Mathlib

/-!
# Verification of the componentwise gradient-boosting survival code

Shallow embedding of `sksurv/ensemble/genboosting.py` and `sksurv/metrics.py`
(repository `thierrymoudiki/scikit-survival`).  Machine floats are modelled by
rationals, numpy arrays by lists or by functions on `Fin n`, and Python
exceptions by an `Except` monad over an explicit exception type.  The wrapped
regression estimator is an external collaborator (scikit-learn style object
with `fit`/`predict`); it is modelled by a structure holding an abstract state
type together with the fitting and prediction operations, so every theorem
quantifies over all possible collaborators.
-/

/-- Python exceptions that the embedded code can raise. -/
inductive PyExc : Type where
  | typeError : PyExc
  | valueError : PyExc
  | nameError : PyExc
  | attributeError : PyExc
  | notFittedError : PyExc
deriving DecidableEq, Repr

/-- A numpy 1-D array of floats, modelled as a list of rationals. -/
abbrev Vec : Type := List ℚ

/-- A numpy 2-D array (samples × features). -/
abbrev Mat : Type := List (List ℚ)

/-- Elementwise addition of two vectors (`a + b` on numpy arrays). -/
def vecAdd (a b : Vec) : Vec := List.zipWith (· + ·) a b

/-- Elementwise difference of two vectors (`a - b` on numpy arrays). -/
def vecSub (a b : Vec) : Vec := List.zipWith (· - ·) a b

/-- Scalar times vector (`c * a` on numpy arrays). -/
def smul (c : ℚ) (a : Vec) : Vec := a.map (fun x => c * x)

/-- `sklearn.utils.extmath.squared_norm`: sum of squared entries. -/
def squared_norm (v : Vec) : ℚ := (v.map (fun x => x * x)).sum

/-- `X[:, c]`: the single column `c` of a matrix, kept as a one-column matrix
(the slice that the code hands to the wrapped estimator). -/
def col (X : Mat) (c : ℕ) : Mat := X.map (fun row => [row.getD c 0])

/-- `numpy.column_stack((numpy.ones(n_samples), X))`: prepend an intercept
column of ones. -/
def columnStackOnes (X : Mat) : Mat := X.map (fun row => 1 :: row)

/-- `X.shape[1]`: number of features (columns) of a matrix. -/
def nFeatures (X : Mat) : ℕ := (X.headD []).length

/-- The external regression-estimator collaborator (`regr`).  `State` is the
estimator's internal fitted state.  `fitW` is `regr.fit(X, y,
sample_weight=w)`, which may raise; `fitU` is the plain `regr.fit(X, y)`;
`predict` is `regr.predict(X)`.  `privatePredict` models the Python attribute
`_predict`: `none` when the object has no such attribute (the usual case for a
scikit-learn regressor), in which case an access raises `AttributeError`. -/
structure RegrModel : Type 1 where
  State : Type
  fitW : State → Mat → Vec → Vec → Except PyExc State
  fitU : State → Mat → Vec → State
  predict : State → Mat → Vec
  privatePredict : Option (State → Mat → Vec) := none

/-- `_ComponentwiseBaseLearner.fit(X, y, sample_weight)` (genboosting.py
lines 54-59): try the weighted fit of the wrapped estimator on the full
matrix `X`; on any exception fall back to the unweighted fit; the method
returns `self.regr`, i.e. the fitted regressor state itself. -/
def componentwiseBaseLearnerFit (R : RegrModel) (s : R.State) (X : Mat) (y w : Vec) :
    R.State :=
  match R.fitW s X y w with
  | Except.ok s2 => s2
  | Except.error _ => R.fitU s X y

/-- `_ComponentwiseBaseLearner.predict(X)` (genboosting.py lines 61-62):
apply the wrapped estimator to the single designated column of `X`. -/
def componentwiseBaseLearnerPredict (R : RegrModel) (component : ℕ) (s : R.State)
    (X : Mat) : Vec :=
  R.predict s (col X component)

/-- First-occurrence argmin over a list, accumulator form: `bestIdx`/`bestVal`
is the best candidate so far, `k` the index of the head of `l` in the
original list.  A later element replaces the incumbent only when strictly
smaller, so exact ties keep the earliest index — the behaviour of
`numpy.nanargmin` on a NaN-free array. -/
def argminAux : List ℚ → ℕ → ℚ → ℕ → ℕ
  | [], bestIdx, _, _ => bestIdx
  | x :: xs, bestIdx, bestVal, k =>
      if x < bestVal then argminAux xs k x (k + 1) else argminAux xs bestIdx bestVal (k + 1)

/-- `numpy.nanargmin` on a dense (NaN-free) array: index of the first minimum.
(The source raises on an empty array; callers pass `n_features ≥ 1`.) -/
def nanargmin : List ℚ → ℕ
  | [] => 0
  | x :: xs => argminAux xs 0 x 1

/-- The shared regressor's state after the first `k` iterations of the loop in
`_fit_stage_componentwise` (genboosting.py lines 72-76).  Each iteration calls
`_ComponentwiseBaseLearner(component, regr=regr).fit(X, residuals,
sample_weight)`, which refits the one shared `regr` object on the full matrix
with identical arguments, so only the iteration count matters. -/
def regrStateAfter (R : RegrModel) (s0 : R.State) (X : Mat) (residuals sample_weight : Vec) :
    ℕ → R.State
  | 0 => s0
  | k + 1 => componentwiseBaseLearnerFit R
      (regrStateAfter R s0 X residuals sample_weight k) X residuals sample_weight

/-- The `error` array of `_fit_stage_componentwise` (line 75):
`error[component] = squared_norm(residuals - l_pred)` where `l_pred` is the
prediction of the just-refitted shared regressor on the full matrix `X`
(`learner` is the value returned by `.fit`, i.e. `regr` itself, so
`learner.predict(X)` is `regr.predict(X)`).  No sample weights enter. -/
def stageErrors (R : RegrModel) (s0 : R.State) (X : Mat) (residuals sample_weight : Vec) :
    List ℚ :=
  (List.range (nFeatures X)).map (fun c =>
    squared_norm (vecSub residuals
      (R.predict (regrStateAfter R s0 X residuals sample_weight (c + 1)) X)))

/-- `_fit_stage_componentwise(X, residuals, sample_weight, regr)`
(genboosting.py lines 65-81).  The first component of the result is the
returned `best_learner`: since every entry of `base_learners` aliases the one
shared `regr` object, indexing with `best_component` yields that object in its
final state, after all `n_features` refits.  The second component records
`best_component = nanargmin(error)` (it does not influence the returned
learner; it is kept so that the selection rule can be stated). -/
def fit_stage_componentwise (R : RegrModel) (s0 : R.State) (X : Mat)
    (residuals sample_weight : Vec) : R.State × ℕ :=
  (regrStateAfter R s0 X residuals sample_weight (nFeatures X),
   nanargmin (stageErrors R s0 X residuals sample_weight))

/-- `_sample_binomial_plus_one(p, size, random_state)` (genboosting.py lines
39-46), with the randomness made explicit: `draw` is the vector returned by
`random_state.binomial(1, p, size)` and `fallbackIdx` the value of
`random_state.randint(0, size)` used when the draw is all zeros.  Returns the
drop mask together with `n_dropped`. -/
def sample_binomial_plus_one (draw : List Bool) (fallbackIdx : ℕ) : List Bool × ℕ :=
  let n := draw.count true
  if n = 0 then (draw.set fallbackIdx true, 1) else (draw, n)

/-- The in-place loop of `_update_with_dropout` (genboosting.py lines 290-293)
acting on the scale vector: position `m` of `scale` is multiplied by `factor`
when `drop_model[m] == 1`; positions beyond the mask are untouched. -/
def applyDropLoop : List Bool → ℚ → List ℚ → List ℚ
  | [], _, scale => scale
  | _, _, [] => []
  | d :: ds, factor, x :: xs =>
      (if d then x * factor else x) :: applyDropLoop ds factor xs

/-- `ComponentwiseGenGradientBoostingSurvivalAnalysis._update_with_dropout(i, X,
raw_predictions, scale, random_state)` (genboosting.py lines 282-296).
`stagePred m` stands for `self.estimators_[m].predict(X)` and `nSamples` for
the length of `raw_predictions`.  Returns the updated scale vector and the
recomputed `raw_predictions`:
`scale[i+1] := 1/(n_dropped+1)`; each dropped stage `m ≤ i` has
`scale[m] *= n_dropped/(n_dropped+1)`; the prediction is rebuilt from the
non-dropped stages with `learning_rate * scale[m]`. -/
def update_with_dropout (learning_rate : ℚ) (stagePred : ℕ → Vec) (nSamples : ℕ)
    (i : ℕ) (scale : List ℚ) (draw : List Bool) (fallbackIdx : ℕ) : List ℚ × Vec :=
  let p := sample_binomial_plus_one draw fallbackIdx
  let nd : ℚ := (p.2 : ℚ)
  let s1 := scale.set (i + 1) (1 / (nd + 1))
  let s2 := applyDropLoop p.1 (nd / (nd + 1)) s1
  let pred := (List.range (i + 1)).foldl
    (fun acc m => if p.1.getD m false then acc
      else vecAdd acc (smul (learning_rate * s2.getD m 0) (stagePred m)))
    (List.replicate nSamples 0)
  (s2, pred)

/-- `ComponentwiseGenGradientBoostingSurvivalAnalysis._raw_predict(X)`
(genboosting.py lines 445-449): starting from zeros, add
`learning_rate * estimator.predict(X)` for every stored estimator.  The stored
estimators are shared-regressor states (see `fit_stage_componentwise`), so
`estimator.predict` is the wrapped regressor's predict on the full matrix;
no dropout scale factor is applied. -/
def rawPredict (R : RegrModel) (learning_rate : ℚ) (ests : List R.State) (X : Mat) : Vec :=
  ests.foldl (fun pred s => vecAdd pred (smul learning_rate (R.predict s X)))
    (List.replicate X.length 0)

/-- `ComponentwiseGenGradientBoostingSurvivalAnalysis._predict(X)`
(genboosting.py lines 451-455): prepend the intercept column, run
`_raw_predict`, and apply the loss strategy's `_scale_raw_prediction`
(`scaleRaw`, an abstract collaborator of the loss object). -/
def underscorePredict (R : RegrModel) (scaleRaw : Vec → Vec) (learning_rate : ℚ)
    (ests : List R.State) (X : Mat) : Vec :=
  scaleRaw (rawPredict R learning_rate ests (columnStackOnes X))

/-- `ComponentwiseGenGradientBoostingSurvivalAnalysis.predict(X)`
(genboosting.py lines 457-478).  After `check_is_fitted` (modelled by the
emptiness test on `estimators_`) and input validation, the body is
`return self.regr._predict(X)`: it dispatches to the `_predict` attribute of
the wrapped regressor object — `AttributeError` when the regressor has none —
and never touches the fitted stages. -/
def predictMethod (R : RegrModel) (regrState : R.State) (ests : List R.State)
    (X : Mat) : Except PyExc Vec :=
  if ests.isEmpty then Except.error PyExc.notFittedError
  else
    match R.privatePredict with
    | none => Except.error PyExc.attributeError
    | some f => Except.ok (f regrState X)

/-- The three loss strategies selectable by name (`LOSS_FUNCTIONS`). -/
inductive Loss : Type where
  | coxph : Loss
  | squared : Loss
  | ipcwls : Loss
deriving DecidableEq, Repr

/-- `ComponentwiseGenGradientBoostingSurvivalAnalysis._set_baseline_model(X,
event, time)` (genboosting.py lines 438-443): when the loss is the Cox partial
likelihood, fit the Breslow estimator (abstract collaborator `breslowFit`) on
the risk scores `_predict(X)`; otherwise store `None`.  `riskScores` stands
for the already-computed `self._predict(X)`. -/
def set_baseline_model {β : Type} (loss : Loss)
    (breslowFit : Vec → List Bool → Vec → β)
    (riskScores : Vec) (event : List Bool) (time : Vec) : Option β :=
  match loss with
  | Loss.coxph => some (breslowFit riskScores event time)
  | _ => none

/-- `ComponentwiseGenGradientBoostingSurvivalAnalysis._get_baseline_model()`
(genboosting.py lines 480-483): raise `ValueError` when no baseline model was
stored, else return it. -/
def get_baseline_model {β : Type} (b : Option β) : Except PyExc β :=
  match b with
  | none => Except.error PyExc.valueError
  | some m => Except.ok m

/-- The `unique_times_` property (genboosting.py lines 619-621):
`self._get_baseline_model().unique_times_`. -/
def uniqueTimesProperty {β : Type} (b : Option β) (uniqueTimes : β → Vec) :
    Except PyExc Vec :=
  (get_baseline_model b).map uniqueTimes

/-- `predict_cumulative_hazard_function(X, return_array)` (genboosting.py line
545): `self._predict_cumulative_hazard_function(self._get_baseline_model(),
self.predict(X), return_array)`.  Python evaluates `_get_baseline_model()`
before `predict(X)`, so a missing baseline model raises first; `chf` is the
abstract mixin collaborator. -/
def predict_cumulative_hazard_function {β γ : Type} (R : RegrModel)
    (b : Option β) (chf : β → Vec → Bool → γ) (regrState : R.State)
    (ests : List R.State) (X : Mat) (return_array : Bool) : Except PyExc γ :=
  (get_baseline_model b).bind (fun bm =>
    (predictMethod R regrState ests X).map (fun p => chf bm p return_array))

/-- `predict_survival_function(X, return_array)` (genboosting.py line 608),
same shape as the cumulative-hazard version with the mixin collaborator
`survFn`. -/
def predict_survival_function {β γ : Type} (R : RegrModel)
    (b : Option β) (survFn : β → Vec → Bool → γ) (regrState : R.State)
    (ests : List R.State) (X : Mat) (return_array : Bool) : Except PyExc γ :=
  (get_baseline_model b).bind (fun bm =>
    (predictMethod R regrState ests X).map (fun p => survFn bm p return_array))

/-- Number of positional arguments at the call site in `fit` (genboosting.py
line 433): `self._fit(regr, Xi, event, time, y_pred, sample_weight, self._rng,
begin_at_stage)`. -/
def fitCallPositionalArgCount : ℕ := 8

/-- Number of positional parameters `_fit` accepts after `self` (genboosting.py
line 298): `(X, event, time, y_pred, sample_weight, random_state,
begin_at_stage=0)`. -/
def fitDefPositionalParamCount : ℕ := 7

/-- `ComponentwiseGenGradientBoostingSurvivalAnalysis.fit(regr, X, y,
sample_weight)` (genboosting.py lines 370-436).  The validation collaborators
are abstract: `validateData` is sklearn's `self._validate_data(X,
ensure_min_samples=2)`, `checkArraySurvival` is `sksurv.util
.check_array_survival(X, y)` (yielding the event/time pair), and
`checkSampleWeight` is `_check_sample_weight(sample_weight, X)`.  After the
intercept column is prepended, the method dispatches
`self._fit(regr, Xi, event, time, y_pred, sample_weight, self._rng,
begin_at_stage)`: Python raises `TypeError` at the call when more positional
arguments are supplied than the callee accepts, so the dispatch succeeds only
if the arity check passes, in which case `callBody` (the `_fit` body followed
by `_set_baseline_model` and `return self`) would run. -/
def fitMethod {σ α : Type} (validateData : Mat → Except PyExc Mat)
    (checkArraySurvival : Mat → σ → Except PyExc (List Bool × Vec))
    (checkSampleWeight : Mat → Except PyExc Vec)
    (callBody : Mat → List Bool × Vec → Vec → Except PyExc α)
    (X : Mat) (y : σ) : Except PyExc α :=
  (validateData X).bind (fun Xv =>
    (checkArraySurvival Xv y).bind (fun et =>
      (checkSampleWeight Xv).bind (fun sw =>
        let Xi := columnStackOnes Xv
        if fitDefPositionalParamCount < fitCallPositionalArgCount
        then Except.error PyExc.typeError
        else callBody Xi et sw)))

/-- The comparable-partner set of sample `i` built by `_get_comparable`
(metrics.py lines 59-84), expressed over original sample indices: an event
sample is comparable to every sample with a strictly later time and to every
censored sample with the same time; a censored sample gets no mask.  (The
dict-of-masks over sort positions in the source encodes exactly these pairs;
the totals below are order-independent.) -/
def comparableTo {n : ℕ} (ev : Fin n → Bool) (tm : Fin n → ℚ) (i : Fin n) :
    Finset (Fin n) :=
  if ev i then
    Finset.univ.filter (fun k => tm i < tm k ∨ (tm i = tm k ∧ ev k = false))
  else ∅

/-- The `tied_time` accumulator of `_get_comparable` (metrics.py line 81):
for every event sample, add the number of censored samples sharing its exact
time. -/
def tiedTimeCount {n : ℕ} (ev : Fin n → Bool) (tm : Fin n → ℚ) : ℕ :=
  Finset.univ.sum (fun i =>
    if ev i then (Finset.univ.filter (fun k => tm k = tm i ∧ ev k = false)).card else 0)

/-- `n_con` for event sample `i` in `_estimate_concordance_index` (metrics.py
lines 106-110): comparable partners whose estimate is strictly below `est_i`
and not within `tied_tol` of it. -/
def nConcordant {n : ℕ} (ev : Fin n → Bool) (tm est : Fin n → ℚ) (tol : ℚ)
    (i : Fin n) : ℕ :=
  ((comparableTo ev tm i).filter
    (fun k => ¬(|est k - est i| ≤ tol) ∧ est k < est i)).card

/-- `n_ties` for event sample `i` (metrics.py lines 106-107): comparable
partners whose estimate is within `tied_tol` of `est_i`. -/
def nTiedRisk {n : ℕ} (ev : Fin n → Bool) (tm est : Fin n → ℚ) (tol : ℚ)
    (i : Fin n) : ℕ :=
  ((comparableTo ev tm i).filter (fun k => |est k - est i| ≤ tol)).card

/-- The per-sample discordant count (metrics.py line 117):
`est.size - n_con - n_ties`. -/
def nDiscordant {n : ℕ} (ev : Fin n → Bool) (tm est : Fin n → ℚ) (tol : ℚ)
    (i : Fin n) : ℕ :=
  (comparableTo ev tm i).card - nConcordant ev tm est tol i - nTiedRisk ev tm est tol i

/-- Total `concordant` returned by `_estimate_concordance_index`. -/
def concordantTotal {n : ℕ} (ev : Fin n → Bool) (tm est : Fin n → ℚ) (tol : ℚ) : ℕ :=
  Finset.univ.sum (fun i => nConcordant ev tm est tol i)

/-- Total `discordant` returned by `_estimate_concordance_index`. -/
def discordantTotal {n : ℕ} (ev : Fin n → Bool) (tm est : Fin n → ℚ) (tol : ℚ) : ℕ :=
  Finset.univ.sum (fun i => nDiscordant ev tm est tol i)

/-- Total `tied_risk` returned by `_estimate_concordance_index`. -/
def tiedRiskTotal {n : ℕ} (ev : Fin n → Bool) (tm est : Fin n → ℚ) (tol : ℚ) : ℕ :=
  Finset.univ.sum (fun i => nTiedRisk ev tm est tol i)

/-- Total number of comparable pairs, `sum over masks of mask.sum()`. -/
def comparableTotal {n : ℕ} (ev : Fin n → Bool) (tm : Fin n → ℚ) : ℕ :=
  Finset.univ.sum (fun i => (comparableTo ev tm i).card)

/-- The `numerator` accumulator (metrics.py line 112) with the all-ones
weights used by `concordance_index_censored`:
`numerator += w_i * n_con + 0.5 * w_i * n_ties`. -/
def numeratorQ {n : ℕ} (ev : Fin n → Bool) (tm est : Fin n → ℚ) (tol : ℚ) : ℚ :=
  Finset.univ.sum (fun i =>
    (nConcordant ev tm est tol i : ℚ) + (nTiedRisk ev tm est tol i : ℚ) / 2)

/-- The `denominator` accumulator (metrics.py line 113) with all-ones weights:
`denominator += w_i * mask.sum()`. -/
def denominatorQ {n : ℕ} (ev : Fin n → Bool) (tm : Fin n → ℚ) : ℚ :=
  Finset.univ.sum (fun i => ((comparableTo ev tm i).card : ℚ))

/-- The `cindex = numerator / denominator` of `_estimate_concordance_index`
(metrics.py line 119). -/
def cindexQ {n : ℕ} (ev : Fin n → Bool) (tm est : Fin n → ℚ) (tol : ℚ) : ℚ :=
  numeratorQ ev tm est tol / denominatorQ ev tm

/-- `concordance_index_censored(event_indicator, event_time, estimate,
tied_tol)` (metrics.py lines 146-210): `_check_inputs` rejects fewer than two
samples and all-censored data (the boolean-dtype requirement is enforced by
the type of `ev`), then `_estimate_concordance_index` runs with unit weights
and returns `(cindex, concordant, discordant, tied_risk, tied_time)`. -/
def concordance_index_censored {n : ℕ} (ev : Fin n → Bool) (tm est : Fin n → ℚ)
    (tol : ℚ) : Except PyExc (ℚ × ℕ × ℕ × ℕ × ℕ) :=
  if n < 2 then Except.error PyExc.valueError
  else if ¬(∃ i, ev i = true) then Except.error PyExc.valueError
  else Except.ok
    (cindexQ ev tm est tol, concordantTotal ev tm est tol,
     discordantTotal ev tm est tol, tiedRiskTotal ev tm est tol,
     tiedTimeCount ev tm)

/-- A survival record: `(event, time)` pair of one structured-array entry. -/
structure SurvRecord : Type where
  event : Bool
  time : ℚ
deriving DecidableEq, Repr

/-- The local names bound in `brier_score` when its first statement runs: its
parameters (metrics.py lines 477-481). -/
def brierScoreLocalNames : List String :=
  ["survival_train", "survival_test", "estimate", "times",
   "t_max", "use_mean_point", "internal_validation", "kwargs"]

/-- The module-level names of `sksurv.metrics` (imports plus the definitions of
the module itself). -/
def metricsModuleNames : List String :=
  ["numpy", "trapz", "check_consistent_length", "check_array",
   "CensoringDistributionEstimator", "SurvivalFunctionEstimator",
   "check_y_survival", "__all__", "_check_estimate", "_check_inputs",
   "_get_comparable", "_estimate_concordance_index", "_interp_pred_surv",
   "concordance_index_censored", "concordance_index_ipcw",
   "cumulative_dynamic_auc", "brier_score", "integrated_brier_score"]

/-- Name resolution inside `brier_score`: a name is defined when it is a local
(parameter) or a module-level global.  `test_time` is neither. -/
def brierScoreNameDefined (s : String) : Bool :=
  brierScoreLocalNames.contains s || metricsModuleNames.contains s

/-- `brier_score(survival_train, survival_test, estimate, times, t_max,
use_mean_point, internal_validation)` (metrics.py lines 477-616).  Its first
executable statement (line 551) is
`check_array(numpy.atleast_1d(times), ensure_2d=False, dtype=test_time.dtype)`:
evaluating `test_time.dtype` looks the name `test_time` up and raises
`NameError` when it is unbound.  `restOfBody` stands for the remainder of the
function body (lines 552-616), which is reached only if the lookup succeeds. -/
def brier_score
    (restOfBody : List SurvRecord → List SurvRecord → Mat → Vec → Option ℚ →
      Bool → Bool → Except PyExc (Vec × Vec))
    (survival_train survival_test : List SurvRecord) (estimate : Mat)
    (times : Vec) (t_max : Option ℚ) (use_mean_point internal_validation : Bool) :
    Except PyExc (Vec × Vec) :=
  if brierScoreNameDefined "test_time"
  then restOfBody survival_train survival_test estimate times t_max
    use_mean_point internal_validation
  else Except.error PyExc.nameError

/-- `numpy.trapz(y, x)`: composite trapezoidal rule,
`sum over consecutive points of (x_next - x_cur) * (y_cur + y_next) / 2`. -/
def trapzRule : List ℚ → List ℚ → ℚ
  | y0 :: y1 :: ys, x0 :: x1 :: xs =>
      (x1 - x0) * (y0 + y1) / 2 + trapzRule (y1 :: ys) (x1 :: xs)
  | _, _ => 0

/-- `max(times)` with 0 for the (never valid) empty list. -/
def listMax : List ℚ → ℚ
  | [] => 0
  | x :: xs => xs.foldl max x

/-- `integrated_brier_score(survival_train, survival_test, estimate, times,
t_max, use_mean_point, internal_validation)` (metrics.py lines 619-693): call
`brier_score` (with `use_mean_point=False`, `internal_validation=True`), pick
`t_max` as `max(times)` or `min(t_max, max(times))`, and return
`numpy.trapz(brier_scores, times) / t_max`. -/
def integrated_brier_score
    (restOfBody : List SurvRecord → List SurvRecord → Mat → Vec → Option ℚ →
      Bool → Bool → Except PyExc (Vec × Vec))
    (survival_train survival_test : List SurvRecord) (estimate : Mat)
    (times : Vec) (t_max : Option ℚ) (use_mean_point internal_validation : Bool) :
    Except PyExc ℚ :=
  (brier_score restOfBody survival_train survival_test estimate times t_max
    false true).bind (fun r =>
      let tmax := match t_max with
        | none => listMax r.1
        | some t => min t (listMax r.1)
      Except.ok (trapzRule r.2 r.1 / tmax))

/-- The prediction formula asserted by claim C1 (written from the claim's own
words, to be compared with the source `predict`): the loss strategy's scaling
transform applied to `learning_rate` times the sum over the fitted stages of
the stage's dropout scale factor times the stage estimator's prediction on its
single designated column of the intercept-augmented matrix.  `stages` pairs
each stage's designated component with its fitted estimator state, `scales`
lists the per-stage dropout scale factors (all 1 when dropout is disabled). -/
def claimPredict (R : RegrModel) (scaleRaw : Vec → Vec) (learning_rate : ℚ)
    (stages : List (ℕ × R.State)) (scales : List ℚ) (X : Mat) : Vec :=
  scaleRaw ((List.range X.length).map (fun i =>
    learning_rate * ((List.zip stages scales).map (fun p =>
      p.2 * ((componentwiseBaseLearnerPredict R p.1.1 p.1.2
        (columnStackOnes X)).getD i 0))).sum))

/-- Weighted sum-of-squares error, as the words of claim C3 demand:
`sum over samples of w_i * (residual_i - prediction_i)^2`. -/
def weightedSSE (w r p : Vec) : ℚ :=
  ((List.zip w (vecSub r p)).map (fun q => q.1 * q.2 * q.2)).sum

/-- The per-feature candidate of claims C3/C4 (written from the claims' own
words): a componentwise learner for feature `c` fitted on the single
designated column of `X` against the residuals. -/
def claimCandidateState (R : RegrModel) (c : ℕ) (s0 : R.State) (X : Mat)
    (residuals sample_weight : Vec) : R.State :=
  componentwiseBaseLearnerFit R s0 (col X c) residuals sample_weight

/-- The stage selection asserted by claim C3 (from the claim's words): the
feature whose candidate minimises the weighted sum-of-squares error on the
residuals, ties to the lowest index. -/
def claimStageWinner (R : RegrModel) (s0 : R.State) (X : Mat)
    (residuals sample_weight : Vec) : ℕ :=
  nanargmin ((List.range (nFeatures X)).map (fun c =>
    weightedSSE sample_weight residuals
      (componentwiseBaseLearnerPredict R c
        (claimCandidateState R c s0 X residuals sample_weight) X)))

/-- The single designated feature column of `X` with an intercept column of
ones, as the words of claim C4 describe the training input. -/
def interceptCol (X : Mat) (c : ℕ) : Mat := X.map (fun row => [1, row.getD c 0])

/-- The base-learner fit asserted by claim C4 (from the claim's words):
train the wrapped estimator using only the designated column plus intercept. -/
def claimComponentwiseFit (R : RegrModel) (c : ℕ) (s : R.State) (X : Mat)
    (y w : Vec) : R.State :=
  componentwiseBaseLearnerFit R s (interceptCol X c) y w

/-- The `tied_time` asserted by claim C5 (from the claim's words): the number
of pairs of two event samples tied on time. -/
def claimTiedTime {n : ℕ} (ev : Fin n → Bool) (tm : Fin n → ℚ) : ℕ :=
  (Finset.univ.filter (fun p : Fin n × Fin n =>
    p.1 < p.2 ∧ ev p.1 = true ∧ ev p.2 = true ∧ tm p.1 = tm p.2)).card

/-- Concrete collaborator for witnesses: a stateless estimator whose
prediction is the first column of whatever matrix it is given. -/
def colReader : RegrModel where
  State := Unit
  fitW := fun _ _ _ _ => Except.ok ()
  fitU := fun _ _ _ => ()
  predict := fun _ M => M.map (fun row => row.getD 0 0)

/-- Concrete collaborator whose fitted state records the number of columns of
the training matrix and predicts that number for every sample. -/
def colCount : RegrModel where
  State := ℕ
  fitW := fun _ X _ _ => Except.ok (nFeatures X)
  fitU := fun _ X _ => nFeatures X
  predict := fun s M => M.map (fun _ => (s : ℚ))

/-- Concrete collaborator that rejects sample weights: the weighted fit
raises, the unweighted fit stores the state 7. -/
def weightRejecting : RegrModel where
  State := ℕ
  fitW := fun _ _ _ _ => Except.error PyExc.typeError
  fitU := fun _ _ _ => 7
  predict := fun s M => M.map (fun _ => (s : ℚ))

/-- Concrete collaborator owning a `_predict` attribute (constant 9) while its
public predict is the constant 2. -/
def privOwner : RegrModel where
  State := Unit
  fitW := fun _ _ _ _ => Except.ok ()
  fitU := fun _ _ _ => ()
  predict := fun _ M => M.map (fun _ => 2)
  privatePredict := some (fun _ M => M.map (fun _ => 9))

/-- Concrete survival dataset A (one censored sample, one tied time). -/
def evA : Fin 3 → Bool := ![true, false, true]

/-- Times of dataset A. -/
def tmA : Fin 3 → ℚ := ![1, 1, 2]

/-- Risk estimates of dataset A. -/
def estA : Fin 3 → ℚ := ![2, 1, 0]

/-- Concrete survival dataset B (two events tied on time). -/
def evB : Fin 3 → Bool := ![true, true, true]

/-- Times of dataset B. -/
def tmB : Fin 3 → ℚ := ![5, 5, 8]

/-- Risk estimates of dataset B. -/
def estB : Fin 3 → ℚ := ![3, 2, 1]

lemma vecAdd_length (a b : Vec) : (vecAdd a b).length = min a.length b.length := by
  simp [vecAdd]

lemma vecAdd_getD (a b : Vec) (i : ℕ) (ha : i < a.length) (hb : i < b.length) :
    (vecAdd a b).getD i 0 = a.getD i 0 + b.getD i 0 := by
  have hl : i < (vecAdd a b).length := by
    rw [vecAdd_length]; exact lt_min ha hb
  rw [List.getD_eq_getElem _ _ hl, List.getD_eq_getElem _ _ ha, List.getD_eq_getElem _ _ hb]
  simp [vecAdd, List.getElem_zipWith]

lemma smul_getD (c : ℚ) (v : Vec) (i : ℕ) : (smul c v).getD i 0 = c * v.getD i 0 := by
  rw [List.getD_eq_getElem?_getD, List.getD_eq_getElem?_getD]
  unfold smul
  rw [List.getElem?_map]
  cases v[i]? with
  | none => simp
  | some x => simp

lemma list_eq_range_map_getD (l : List ℚ) :
    l = (List.range l.length).map (fun i => l.getD i 0) := by
  apply List.ext_getElem
  · simp
  · intro i h1 h2
    simp only [List.getElem_map, List.getElem_range]
    exact (List.getD_eq_getElem l 0 h1).symm

lemma sum_map_mul_left (c : ℚ) (l : List ℚ) :
    (l.map (fun x => c * x)).sum = c * l.sum := by
  induction l with
  | nil => simp
  | cons x xs ih => simp [ih]; ring

lemma foldl_vecAdd_eq (L : ℕ) (vs : List Vec) (acc : Vec)
    (hvs : ∀ v ∈ vs, v.length = L) (hacc : acc.length = L) :
    vs.foldl vecAdd acc =
      (List.range L).map (fun i => acc.getD i 0 + (vs.map (fun v => v.getD i 0)).sum) := by
  induction vs generalizing acc with
  | nil =>
      simp only [List.foldl_nil, List.map_nil, List.sum_nil, add_zero]
      rw [← hacc]
      exact list_eq_range_map_getD acc
  | cons v vs ih =>
      have hv : v.length = L := hvs v (List.mem_cons_self v vs)
      have hacc2 : (vecAdd acc v).length = L := by
        rw [vecAdd_length, hacc, hv, min_self]
      rw [List.foldl_cons, ih (vecAdd acc v) (fun u hu => hvs u (List.mem_cons_of_mem v hu)) hacc2]
      apply List.map_congr_left
      intro i hi
      have hiL : i < L := List.mem_range.mp hi
      rw [vecAdd_getD acc v i (by rw [hacc]; exact hiL) (by rw [hv]; exact hiL)]
      simp only [List.map_cons, List.sum_cons]
      ring

lemma replicate_getD (n i : ℕ) (c : ℚ) (h : i < n) : (List.replicate n c).getD i 0 = c := by
  have h2 : i < (List.replicate n c).length := by simpa using h
  rw [List.getD_eq_getElem _ _ h2]
  exact List.getElem_replicate c h2

lemma rawPredict_eq (R : RegrModel) (lr : ℚ) (ests : List R.State) (X : Mat)
    (hlen : ∀ st ∈ ests, (R.predict st X).length = X.length) :
    rawPredict R lr ests X =
      (List.range X.length).map (fun i =>
        lr * (ests.map (fun st => (R.predict st X).getD i 0)).sum) := by
  unfold rawPredict
  rw [← List.foldl_map (fun s => smul lr (R.predict s X)) vecAdd]
  rw [foldl_vecAdd_eq X.length]
  · apply List.map_congr_left
    intro i hi
    rw [replicate_getD _ _ _ (List.mem_range.mp hi), zero_add, List.map_map]
    have : (fun v : Vec => v.getD i 0) ∘ (fun s => smul lr (R.predict s X)) =
        fun st => lr * (R.predict st X).getD i 0 := by
      funext st
      exact smul_getD lr (R.predict st X) i
    rw [this, ← sum_map_mul_left lr, List.map_map]
    rfl
  · intro v hv
    rcases List.mem_map.mp hv with ⟨st, hst, rfl⟩
    simp [smul, hlen st hst]
  · simp

lemma argminAux_not_lt : ∀ (l : List ℚ) (b : ℚ) (i k : ℕ),
    (∀ x ∈ l, ¬ x < b) → argminAux l i b k = i := by
  intro l
  induction l with
  | nil => intro b i k _; rfl
  | cons x xs ih =>
      intro b i k h
      unfold argminAux
      rw [if_neg (h x (List.mem_cons_self x xs))]
      exact ih b i (k + 1) (fun y hy => h y (List.mem_cons_of_mem x hy))

lemma nanargmin_const (c : ℚ) (cs : List ℚ) (h : ∀ x ∈ cs, x = c) :
    nanargmin (c :: cs) = 0 := by
  unfold nanargmin
  exact argminAux_not_lt cs c 0 1 (fun x hx => by rw [h x hx]; exact lt_irrefl c)

lemma applyDropLoop_length : ∀ (dm : List Bool) (f : ℚ) (s : List ℚ),
    (applyDropLoop dm f s).length = s.length := by
  intro dm
  induction dm with
  | nil => intro f s; cases s <;> rfl
  | cons d ds ih =>
      intro f s
      cases s with
      | nil => rfl
      | cons x xs => simp [applyDropLoop, ih]

lemma applyDropLoop_getD_lt : ∀ (dm : List Bool) (f : ℚ) (s : List ℚ) (m : ℕ),
    m < dm.length →
    (applyDropLoop dm f s).getD m 0 =
      if dm.getD m false then s.getD m 0 * f else s.getD m 0 := by
  intro dm
  induction dm with
  | nil => intro f s m hm; exact absurd hm (by simp)
  | cons d ds ih =>
      intro f s m hm
      cases s with
      | nil =>
          simp only [applyDropLoop]
          cases hd : (d :: ds).getD m false <;> simp [hd, List.getD]
      | cons x xs =>
          cases m with
          | zero => simp [applyDropLoop, List.getD]
          | succ m2 =>
              simp only [applyDropLoop, List.getD_cons_succ]
              exact ih f xs m2 (by simpa using hm)

lemma applyDropLoop_getD_ge : ∀ (dm : List Bool) (f : ℚ) (s : List ℚ) (m : ℕ),
    dm.length ≤ m →
    (applyDropLoop dm f s).getD m 0 = s.getD m 0 := by
  intro dm
  induction dm with
  | nil => intro f s m _; cases s <;> rfl
  | cons d ds ih =>
      intro f s m hm
      cases s with
      | nil => rfl
      | cons x xs =>
          cases m with
          | zero => exact absurd hm (by simp)
          | succ m2 =>
              simp only [applyDropLoop, List.getD_cons_succ]
              exact ih f xs m2 (by simpa using hm)

lemma getD_set_self (l : List ℚ) (i : ℕ) (v : ℚ) (h : i < l.length) :
    (l.set i v).getD i 0 = v := by
  rw [List.getD_eq_getElem?_getD, List.getElem?_set_self]
  · rfl
  · exact h

lemma getD_set_ne (l : List ℚ) (i j : ℕ) (v : ℚ) (h : i ≠ j) :
    (l.set i v).getD j 0 = l.getD j 0 := by
  rw [List.getD_eq_getElem?_getD, List.getElem?_set_ne h, ← List.getD_eq_getElem?_getD]

lemma count_true_set : ∀ (l : List Bool) (fb : ℕ), l.count true = 0 → fb < l.length →
    (l.set fb true).count true = 1 := by
  intro l
  induction l with
  | nil => intro fb _ hfb; exact absurd hfb (by simp)
  | cons x xs ih =>
      intro fb h0 hfb
      have hx : x = false := by
        cases x with
        | false => rfl
        | true => simp [List.count_cons] at h0
      have hxs : xs.count true = 0 := by
        subst hx
        simpa [List.count_cons] using h0
      cases fb with
      | zero =>
          subst hx
          simp [List.count_cons, hxs]
      | succ fb2 =>
          subst hx
          simp only [List.set, List.count_cons]
          simp [ih fb2 hxs (by simpa using hfb)]

lemma nCon_add_nTies_le {n : ℕ} (ev : Fin n → Bool) (tm est : Fin n → ℚ) (tol : ℚ)
    (i : Fin n) :
    nConcordant ev tm est tol i + nTiedRisk ev tm est tol i ≤ (comparableTo ev tm i).card := by
  unfold nConcordant nTiedRisk
  have hsub : (comparableTo ev tm i).filter (fun k => ¬(|est k - est i| ≤ tol) ∧ est k < est i) ⊆
      (comparableTo ev tm i).filter (fun k => ¬(|est k - est i| ≤ tol)) := by
    intro x hx
    simp only [Finset.mem_filter] at hx ⊢
    exact ⟨hx.1, hx.2.1⟩
  have h1 := Finset.card_le_card hsub
  have h2 : ((comparableTo ev tm i).filter (fun k => |est k - est i| ≤ tol)).card +
      ((comparableTo ev tm i).filter (fun k => ¬(|est k - est i| ≤ tol))).card =
      (comparableTo ev tm i).card :=
    Finset.filter_card_add_filter_neg_card_eq_card (fun k => |est k - est i| ≤ tol)
  omega

/-- C10: whenever the weighted fit of the wrapped regression estimator raises
any exception, `_ComponentwiseBaseLearner.fit` refits it without weights and
returns normally — its result is the unweighted fit's state, and since the
embedded `fit` is a total function into states, the weighted-fit exception is
never propagated to the caller. -/
theorem claim_C10_fallback (R : RegrModel) (s : R.State) (X : Mat) (y w : Vec)
    (e : PyExc) (h : R.fitW s X y w = Except.error e) :
    componentwiseBaseLearnerFit R s X y w = R.fitU s X y := by
  unfold componentwiseBaseLearnerFit
  rw [h]

/-- Witness for C10 at the weight-rejecting concrete collaborator. -/
theorem claim_C10_fallback_witness :
    componentwiseBaseLearnerFit weightRejecting ((0 : ℕ) : weightRejecting.State) [[1]] [2] [3] =
      weightRejecting.fitU ((0 : ℕ) : weightRejecting.State) [[1]] [2] :=
  claim_C10_fallback weightRejecting ((0 : ℕ) : weightRejecting.State) [[1]] [2] [3] PyExc.typeError rfl

/-- C4 counterexample: at the column-counting collaborator,
`_ComponentwiseBaseLearner.fit` on a three-column matrix stores the state 3 —
it trained on all three columns — while the claim's fit on the designated
column plus intercept would store 2; the claim as stated is false. -/
theorem claim_C4_counterexample :
    componentwiseBaseLearnerFit colCount ((0 : ℕ) : colCount.State) [[5, 7, 9]] [0] [1] = ((3 : ℕ) : colCount.State) ∧
    claimComponentwiseFit colCount 1 ((0 : ℕ) : colCount.State) [[5, 7, 9]] [0] [1] = ((2 : ℕ) : colCount.State) ∧
    (3 : ℕ) ≠ 2 := by
  refine ⟨rfl, rfl, by decide⟩

/-- C4 (amended): `_ComponentwiseBaseLearner.predict` applies the fitted
estimator to the single designated column only (its output depends on nothing
else of `X`), while `fit` trains the wrapped estimator on the full matrix it
receives: whenever the weighted fit succeeds, the learner's state is the
estimator fitted on all of `X` (with the unweighted fallback of C10
otherwise). -/
theorem claim_C4_amended (R : RegrModel) (c : ℕ) (s : R.State) :
    (∀ X Y : Mat, col X c = col Y c →
      componentwiseBaseLearnerPredict R c s X = componentwiseBaseLearnerPredict R c s Y) ∧
    (∀ (X : Mat) (y w : Vec) (t : R.State), R.fitW s X y w = Except.ok t →
      componentwiseBaseLearnerFit R s X y w = t) := by
  constructor
  · intro X Y h
    unfold componentwiseBaseLearnerPredict
    rw [h]
  · intro X y w t h
    unfold componentwiseBaseLearnerFit
    rw [h]

/-- Witness for C4 (amended): predictions agree on two matrices sharing the
designated column, and a successful weighted fit on a two-column matrix stores
the full column count 2. -/
theorem claim_C4_amended_witness :
    componentwiseBaseLearnerPredict colCount 1 ((3 : ℕ) : colCount.State) [[9, 7]] =
      componentwiseBaseLearnerPredict colCount 1 ((3 : ℕ) : colCount.State) [[5, 7]] ∧
    componentwiseBaseLearnerFit colCount ((3 : ℕ) : colCount.State) [[9, 7]] [0] [1] =
      ((2 : ℕ) : colCount.State) :=
  ⟨(claim_C4_amended colCount 1 ((3 : ℕ) : colCount.State)).1 [[9, 7]] [[5, 7]] rfl,
   (claim_C4_amended colCount 1 ((3 : ℕ) : colCount.State)).2 [[9, 7]] [0] [1]
     ((2 : ℕ) : colCount.State) rfl⟩

/-- C2: for every collaborator behaviour and every input on which the three
validation steps succeed, `fit` raises `TypeError` at the `self._fit(...)`
dispatch — eight positional arguments against seven accepted — before any
boosting iteration can run, and consequently never returns a fitted model. -/
theorem claim_C2_fit_raises {σ α : Type}
    (validateData : Mat → Except PyExc Mat)
    (checkArraySurvival : Mat → σ → Except PyExc (List Bool × Vec))
    (checkSampleWeight : Mat → Except PyExc Vec)
    (callBody : Mat → List Bool × Vec → Vec → Except PyExc α)
    (X : Mat) (y : σ) (Xv : Mat) (et : List Bool × Vec) (sw : Vec)
    (h1 : validateData X = Except.ok Xv)
    (h2 : checkArraySurvival Xv y = Except.ok et)
    (h3 : checkSampleWeight Xv = Except.ok sw) :
    fitMethod validateData checkArraySurvival checkSampleWeight callBody X y =
      Except.error PyExc.typeError ∧
    ∀ out : α,
      fitMethod validateData checkArraySurvival checkSampleWeight callBody X y ≠
        Except.ok out := by
  have hmain : fitMethod validateData checkArraySurvival checkSampleWeight callBody X y =
      Except.error PyExc.typeError := by
    unfold fitMethod
    rw [h1]
    simp only [Except.bind]
    rw [h2]
    simp only [Except.bind]
    rw [h3]
    rfl
  refine ⟨hmain, fun out h => ?_⟩
  rw [hmain] at h
  exact Except.noConfusion h

/-- Witness for C2 at concrete validators that accept a two-sample input. -/
theorem claim_C2_fit_raises_witness :
    fitMethod (fun m => Except.ok m) (fun _ _ => Except.ok ([true], [1]))
      (fun _ => Except.ok [1]) (fun _ _ _ => Except.ok (0 : ℕ)) [[1], [2]] () =
      Except.error PyExc.typeError :=
  (claim_C2_fit_raises (fun m => Except.ok m) (fun _ _ => Except.ok ([true], [1]))
    (fun _ => Except.ok [1]) (fun _ _ _ => Except.ok (0 : ℕ)) [[1], [2]] ()
    [[1], [2]] ([true], [1]) [1] rfl rfl rfl).1

/-- C8: the stored baseline model is non-null exactly when the loss is the
Cox partial-likelihood loss; the baseline-setting step returns a value for
every loss (it never raises), and on a model whose loss was not Cox each of
`predict_cumulative_hazard_function`, `predict_survival_function` and
`unique_times_` raises `ValueError` at the access point — for every behaviour
of the predict step, so the error fires before prediction is attempted. -/
theorem claim_C8_baseline {β γ : Type} (R : RegrModel)
    (breslowFit : Vec → List Bool → Vec → β) (uniqueTimes : β → Vec)
    (chf survFn : β → Vec → Bool → γ) (loss : Loss)
    (risk : Vec) (ev : List Bool) (tm : Vec)
    (regrState : R.State) (ests : List R.State) (X : Mat) (ra : Bool) :
    ((set_baseline_model loss breslowFit risk ev tm).isSome = true ↔ loss = Loss.coxph) ∧
    (loss = Loss.coxph →
      set_baseline_model loss breslowFit risk ev tm = some (breslowFit risk ev tm)) ∧
    (loss ≠ Loss.coxph →
      set_baseline_model loss breslowFit risk ev tm = none ∧
      predict_cumulative_hazard_function R (set_baseline_model loss breslowFit risk ev tm)
        chf regrState ests X ra = Except.error PyExc.valueError ∧
      predict_survival_function R (set_baseline_model loss breslowFit risk ev tm)
        survFn regrState ests X ra = Except.error PyExc.valueError ∧
      uniqueTimesProperty (set_baseline_model loss breslowFit risk ev tm) uniqueTimes =
        Except.error PyExc.valueError) := by
  cases loss <;>
    simp [set_baseline_model, predict_cumulative_hazard_function,
      predict_survival_function, uniqueTimesProperty, get_baseline_model,
      Except.bind, Except.map]

/-- Witness for C8 with the squared loss: the cumulative-hazard query fails
with `ValueError` at the access point. -/
theorem claim_C8_baseline_witness :
    predict_cumulative_hazard_function colReader
      (set_baseline_model Loss.squared (fun _ _ _ => ()) [1] [true] [1])
      (fun _ _ _ => ()) () [()] [[1]] true = Except.error PyExc.valueError :=
  (((claim_C8_baseline colReader (fun _ _ _ => ()) (fun _ => [])
    (fun _ _ _ => ()) (fun _ _ _ => ()) Loss.squared [1] [true] [1]
    () [()] [[1]] true).2.2) (by decide)).2.1

/-- C6: for every argument list and every continuation body, `brier_score`
raises `NameError` at its first executable statement (the unbound name
`test_time`), and `integrated_brier_score`, which delegates to it, raises the
same `NameError`. -/
theorem claim_C6_brier_name_error
    (restOfBody : List SurvRecord → List SurvRecord → Mat → Vec → Option ℚ →
      Bool → Bool → Except PyExc (Vec × Vec))
    (tr te : List SurvRecord) (est : Mat) (times : Vec)
    (tmax : Option ℚ) (ump iv : Bool) :
    brier_score restOfBody tr te est times tmax ump iv = Except.error PyExc.nameError ∧
    integrated_brier_score restOfBody tr te est times tmax ump iv =
      Except.error PyExc.nameError := by
  have hname : brierScoreNameDefined "test_time" = false := rfl
  have hb : brier_score restOfBody tr te est times tmax ump iv =
      Except.error PyExc.nameError := by
    unfold brier_score
    rw [hname]
    rfl
  refine ⟨hb, ?_⟩
  unfold integrated_brier_score
  have hb2 : brier_score restOfBody tr te est times tmax false true =
      Except.error PyExc.nameError := by
    unfold brier_score
    rw [hname]
    rfl
  rw [hb2]
  rfl

/-- C7 is a code bug: at a valid input whose survival-probability estimate is
the constant 1/2 — where the claim (and the module's own documentation)
promises the integrated Brier score 0.25 — `integrated_brier_score` raises
`NameError` instead of returning a value. -/
theorem claim_C7_ibs_crashes :
    integrated_brier_score (fun _ _ _ _ _ _ _ => Except.ok ([], []))
      [⟨true, 1⟩, ⟨true, 2⟩] [⟨true, 1⟩, ⟨true, 2⟩]
      [[1/2, 1/2], [1/2, 1/2]] [1, 2] none false true = Except.error PyExc.nameError ∧
    integrated_brier_score (fun _ _ _ _ _ _ _ => Except.ok ([], []))
      [⟨true, 1⟩, ⟨true, 2⟩] [⟨true, 1⟩, ⟨true, 2⟩]
      [[1/2, 1/2], [1/2, 1/2]] [1, 2] none false true ≠ Except.ok (1/4) := by
  constructor
  · rfl
  · intro h
    rw [show integrated_brier_score (fun _ _ _ _ _ _ _ => Except.ok ([], []))
      [⟨true, 1⟩, ⟨true, 2⟩] [⟨true, 1⟩, ⟨true, 2⟩]
      [[1/2, 1/2], [1/2, 1/2]] [1, 2] none false true =
        Except.error PyExc.nameError from rfl] at h
    exact Except.noConfusion h

/-- C1 counterexample: at a fitted model over a collaborator with no
`_predict` attribute (the ordinary scikit-learn case), `predict` raises
`AttributeError` instead of returning the claim's ensemble formula, whose
value at this input is `[1]`; the claim as stated is false. -/
theorem claim_C1_counterexample :
    predictMethod colReader () [()] [[2]] = Except.error PyExc.attributeError ∧
    claimPredict colReader id 1 [(0, ())] [1] [[2]] = [1] ∧
    predictMethod colReader () [()] [[2]] ≠
      Except.ok (claimPredict colReader id 1 [(0, ())] [1] [[2]]) := by
  refine ⟨rfl, ?_, ?_⟩
  · norm_num [claimPredict, componentwiseBaseLearnerPredict, columnStackOnes, col,
      colReader, List.range_succ]
    rfl
  · intro h
    rw [show predictMethod colReader () [()] [[2]] = Except.error PyExc.attributeError
      from rfl] at h
    exact Except.noConfusion h

/-- C1 (amended): `predict` dispatches to the wrapped regressor object's
`_predict` attribute — returning its value whenever the attribute exists and
the model is fitted — and the ensemble's internal `_predict` (used only for
the baseline model) equals the loss strategy's prediction-scaling transform of
the vector whose i-th entry is `learning_rate` times the sum over all fitted
stages of the stored stage estimator's prediction on the full
intercept-augmented matrix, with no dropout scale factor. -/
theorem claim_C1_amended (R : RegrModel) (scaleRaw : Vec → Vec) (lr : ℚ)
    (s : R.State) (ests : List R.State) (X : Mat) (f : R.State → Mat → Vec)
    (hf : R.privatePredict = some f) (hne : ests ≠ [])
    (hlen : ∀ st ∈ ests, (R.predict st (columnStackOnes X)).length = X.length) :
    predictMethod R s ests X = Except.ok (f s X) ∧
    underscorePredict R scaleRaw lr ests X =
      scaleRaw ((List.range X.length).map (fun i =>
        lr * (ests.map (fun st =>
          (R.predict st (columnStackOnes X)).getD i 0)).sum)) := by
  constructor
  · have hE : ests.isEmpty = false := by
      cases ests with
      | nil => exact absurd rfl hne
      | cons a l => rfl
    unfold predictMethod
    rw [hE, hf]
    rfl
  · unfold underscorePredict
    have hXi : (columnStackOnes X).length = X.length := by
      simp [columnStackOnes]
    have h := rawPredict_eq R lr ests (columnStackOnes X) (by rw [hXi]; exact hlen)
    rw [h, hXi]

/-- Witness for C1 (amended) at a collaborator owning a `_predict` attribute. -/
theorem claim_C1_amended_witness :
    predictMethod privOwner () [()] [[3]] = Except.ok [9] ∧
    underscorePredict privOwner id 1 [()] [[3]] = [2] := by
  have h := claim_C1_amended privOwner id 1 () [()] [[3]]
    (fun _ M => M.map (fun _ => 9)) rfl (by simp) (by simp [privOwner, columnStackOnes])
  refine ⟨h.1, ?_⟩
  rw [h.2]
  norm_num [privOwner, columnStackOnes, List.range_succ]
  rfl

/-- C3 counterexample: at the first-column-reading collaborator, the claim's
weighted-SSE winner is feature 1 (whose candidate predicts `[1, 2]`), but the
code computes best component 0 and returns the shared regressor, whose
prediction on the same matrix is `[0, 0]` — no per-feature candidate selected
by weighted error is returned; the claim as stated is false. -/
theorem claim_C3_counterexample :
    claimStageWinner colReader () [[0, 1], [0, 2]] [1, 2] [1, 1] = 1 ∧
    (fit_stage_componentwise colReader () [[0, 1], [0, 2]] [1, 2] [1, 1]).2 = 0 ∧
    colReader.predict
      (fit_stage_componentwise colReader () [[0, 1], [0, 2]] [1, 2] [1, 1]).1
      [[0, 1], [0, 2]] = [0, 0] ∧
    componentwiseBaseLearnerPredict colReader 1
      (claimCandidateState colReader 1 () [[0, 1], [0, 2]] [1, 2] [1, 1])
      [[0, 1], [0, 2]] = [1, 2] ∧
    ([0, 0] : Vec) ≠ [1, 2] := by
  have hpred : ∀ (s : colReader.State) (M : Mat),
      colReader.predict s M = M.map (fun row => row.getD 0 0) := fun _ _ => rfl
  refine ⟨?_, ?_, rfl, rfl, by norm_num⟩
  · have h1 : claimStageWinner colReader () [[0, 1], [0, 2]] [1, 2] [1, 1] =
        nanargmin [5, 0] := by
      unfold claimStageWinner
      congr 1
      simp only [componentwiseBaseLearnerPredict, hpred]
      norm_num [nFeatures, weightedSSE, claimCandidateState,
        componentwiseBaseLearnerFit, col, vecSub, List.range_succ]
    rw [h1]
    unfold nanargmin argminAux
    rw [if_pos (by norm_num)]
    rfl
  · have h2 : (fit_stage_componentwise colReader () [[0, 1], [0, 2]] [1, 2] [1, 1]).2 =
        nanargmin [5, 5] := by
      show nanargmin (stageErrors colReader () [[0, 1], [0, 2]] [1, 2] [1, 1]) = _
      congr 1
      simp only [stageErrors, hpred]
      norm_num [nFeatures, squared_norm, vecSub, List.range_succ]
    rw [h2]
    unfold nanargmin argminAux
    rw [if_neg (by norm_num)]
    rfl

/-- C3 (amended): `_fit_stage_componentwise` refits the one shared regressor
once per feature with identical arguments and unweighted errors; for every
collaborator whose fitting depends only on its arguments (not on prior state)
the candidates coincide, every error equals the unweighted full-matrix
sum-of-squares error of the single fit, `nanargmin` therefore selects feature
index 0 (lowest index on exact ties), and the returned learner is the shared
regressor fitted once on the full matrix against the residuals. -/
theorem claim_C3_amended (R : RegrModel) (s0 : R.State) (X : Mat) (r w : Vec)
    (hnf : 1 ≤ nFeatures X)
    (hW : ∀ (s t : R.State) (M : Mat) (y u : Vec), R.fitW s M y u = R.fitW t M y u)
    (hU : ∀ (s t : R.State) (M : Mat) (y : Vec), R.fitU s M y = R.fitU t M y) :
    (fit_stage_componentwise R s0 X r w).2 = 0 ∧
    (fit_stage_componentwise R s0 X r w).1 = componentwiseBaseLearnerFit R s0 X r w ∧
    stageErrors R s0 X r w =
      List.replicate (nFeatures X)
        (squared_norm (vecSub r (R.predict (componentwiseBaseLearnerFit R s0 X r w) X))) := by
  have hbl : ∀ s : R.State,
      componentwiseBaseLearnerFit R s X r w = componentwiseBaseLearnerFit R s0 X r w := by
    intro s
    unfold componentwiseBaseLearnerFit
    rw [hW s s0 X r w]
    cases h : R.fitW s0 X r w with
    | ok t => rfl
    | error e => exact hU s s0 X r
  have hstate : ∀ k : ℕ,
      regrStateAfter R s0 X r w (k + 1) = componentwiseBaseLearnerFit R s0 X r w := by
    intro k
    exact hbl (regrStateAfter R s0 X r w k)
  have herr : stageErrors R s0 X r w =
      List.replicate (nFeatures X)
        (squared_norm (vecSub r (R.predict (componentwiseBaseLearnerFit R s0 X r w) X))) := by
    unfold stageErrors
    refine List.eq_replicate_iff.mpr ⟨by simp, ?_⟩
    intro b hb
    rcases List.mem_map.mp hb with ⟨c, _, rfl⟩
    rw [hstate c]
  obtain ⟨m, hm⟩ : ∃ m, nFeatures X = m + 1 := ⟨nFeatures X - 1, by omega⟩
  refine ⟨?_, ?_, herr⟩
  · show nanargmin (stageErrors R s0 X r w) = 0
    rw [herr, hm, List.replicate_succ]
    exact nanargmin_const _ _ (fun x hx => List.eq_of_mem_replicate hx)
  · show regrStateAfter R s0 X r w (nFeatures X) = _
    rw [hm]
    exact hstate m

/-- Witness for C3 (amended) at the stateless first-column-reading
collaborator. -/
theorem claim_C3_amended_witness :
    (fit_stage_componentwise colReader () [[0, 1], [0, 2]] [1, 2] [1, 1]).2 = 0 ∧
    (fit_stage_componentwise colReader () [[0, 1], [0, 2]] [1, 2] [1, 1]).1 =
      componentwiseBaseLearnerFit colReader () [[0, 1], [0, 2]] [1, 2] [1, 1] := by
  have h := claim_C3_amended colReader () [[0, 1], [0, 2]] [1, 2] [1, 1] (by decide)
    (fun _ _ _ _ _ => rfl) (fun _ _ _ _ => rfl)
  exact ⟨h.1, h.2.1⟩

/-- C9: one dropout update, for every random draw: at least one already-fitted
stage is dropped (`n_dropped ≥ 1`, equal to the number of ones in the final
drop mask); the next stage's scale is set to `1/(n_dropped+1)`; every dropped
stage's scale is multiplied by `n_dropped/(n_dropped+1)` and hence strictly
decreases; and when all stored scales lie in `(0, 1]` beforehand they all lie
in `(0, 1]` afterwards (so the invariant is preserved along every sequence of
updates), with the vector's length unchanged. -/
theorem claim_C9_dropout (lr : ℚ) (stagePred : ℕ → Vec) (nS i : ℕ)
    (scale : List ℚ) (draw : List Bool) (fb : ℕ)
    (hdraw : draw.length = i + 1) (hfb : fb < i + 1) (hlen : i + 1 < scale.length)
    (hinv : ∀ m, m < scale.length → 0 < scale.getD m 0 ∧ scale.getD m 0 ≤ 1) :
    1 ≤ (sample_binomial_plus_one draw fb).2 ∧
    (sample_binomial_plus_one draw fb).1.count true = (sample_binomial_plus_one draw fb).2 ∧
    (update_with_dropout lr stagePred nS i scale draw fb).1.getD (i + 1) 0 =
      1 / (((sample_binomial_plus_one draw fb).2 : ℚ) + 1) ∧
    (∀ m, m < i + 1 → (sample_binomial_plus_one draw fb).1.getD m false = true →
      (update_with_dropout lr stagePred nS i scale draw fb).1.getD m 0 =
        scale.getD m 0 * (((sample_binomial_plus_one draw fb).2 : ℚ) /
          (((sample_binomial_plus_one draw fb).2 : ℚ) + 1)) ∧
      (update_with_dropout lr stagePred nS i scale draw fb).1.getD m 0 <
        scale.getD m 0) ∧
    (∀ m, m < scale.length →
      0 < (update_with_dropout lr stagePred nS i scale draw fb).1.getD m 0 ∧
      (update_with_dropout lr stagePred nS i scale draw fb).1.getD m 0 ≤ 1) ∧
    (update_with_dropout lr stagePred nS i scale draw fb).1.length = scale.length := by
  have hlen1 : (sample_binomial_plus_one draw fb).1.length = i + 1 := by
    unfold sample_binomial_plus_one
    by_cases h0 : draw.count true = 0
    · simp [h0, hdraw]
    · simp [h0, hdraw]
  have hcount : (sample_binomial_plus_one draw fb).1.count true =
      (sample_binomial_plus_one draw fb).2 := by
    unfold sample_binomial_plus_one
    by_cases h0 : draw.count true = 0
    · simp only [h0, if_pos]
      exact count_true_set draw fb h0 (by rw [hdraw]; exact hfb)
    · simp [h0]
  have hone : 1 ≤ (sample_binomial_plus_one draw fb).2 := by
    show 1 ≤ (if draw.count true = 0 then (draw.set fb true, 1)
      else (draw, draw.count true)).2
    by_cases h0 : draw.count true = 0
    · rw [if_pos h0]
    · rw [if_neg h0]
      show 1 ≤ draw.count true
      omega
  have hupd : (update_with_dropout lr stagePred nS i scale draw fb).1 =
      applyDropLoop (sample_binomial_plus_one draw fb).1
        (((sample_binomial_plus_one draw fb).2 : ℚ) /
          (((sample_binomial_plus_one draw fb).2 : ℚ) + 1))
        (scale.set (i + 1)
          (1 / (((sample_binomial_plus_one draw fb).2 : ℚ) + 1))) := rfl
  set nd : ℚ := ((sample_binomial_plus_one draw fb).2 : ℚ) with hnd
  have hnd1 : 1 ≤ nd := by
    rw [hnd]
    exact_mod_cast hone
  have hnd0 : 0 < nd := lt_of_lt_of_le zero_lt_one hnd1
  have hndp : 0 < nd + 1 := by linarith
  have hfrac0 : 0 < nd / (nd + 1) := div_pos hnd0 hndp
  have hfrac1 : nd / (nd + 1) < 1 := by
    rw [div_lt_one hndp]
    linarith
  have htop : (update_with_dropout lr stagePred nS i scale draw fb).1.getD (i + 1) 0 =
      1 / (nd + 1) := by
    rw [hupd, applyDropLoop_getD_ge _ _ _ _ (le_of_eq hlen1)]
    exact getD_set_self scale (i + 1) _ hlen
  have hdropped : ∀ m, m < i + 1 →
      (sample_binomial_plus_one draw fb).1.getD m false = true →
      (update_with_dropout lr stagePred nS i scale draw fb).1.getD m 0 =
        scale.getD m 0 * (nd / (nd + 1)) := by
    intro m hm hdm
    rw [hupd, applyDropLoop_getD_lt _ _ _ m (by rw [hlen1]; exact hm), hdm]
    rw [if_pos rfl, getD_set_ne _ _ _ _ (by omega)]
  have hkept : ∀ m, m < i + 1 →
      (sample_binomial_plus_one draw fb).1.getD m false = false →
      (update_with_dropout lr stagePred nS i scale draw fb).1.getD m 0 =
        scale.getD m 0 := by
    intro m hm hdm
    rw [hupd, applyDropLoop_getD_lt _ _ _ m (by rw [hlen1]; exact hm), hdm]
    rw [if_neg (by simp), getD_set_ne _ _ _ _ (by omega)]
  have hbeyond : ∀ m, i + 1 < m →
      (update_with_dropout lr stagePred nS i scale draw fb).1.getD m 0 =
        scale.getD m 0 := by
    intro m hm
    rw [hupd, applyDropLoop_getD_ge _ _ _ m (by rw [hlen1]; omega)]
    exact getD_set_ne _ _ _ _ (by omega)
  refine ⟨hone, hcount, htop, ?_, ?_, ?_⟩
  · intro m hm hdm
    have hv := hdropped m hm hdm
    refine ⟨hv, ?_⟩
    rw [hv]
    have hpos := (hinv m (by omega)).1
    calc scale.getD m 0 * (nd / (nd + 1)) < scale.getD m 0 * 1 := by
          exact mul_lt_mul_of_pos_left hfrac1 hpos
      _ = scale.getD m 0 := mul_one _
  · intro m hm
    rcases lt_trichotomy m (i + 1) with hm1 | hm1 | hm1
    · cases hdm : (sample_binomial_plus_one draw fb).1.getD m false with
      | false =>
          rw [hkept m hm1 hdm]
          exact hinv m hm
      | true =>
          rw [hdropped m hm1 hdm]
          have hb := hinv m hm
          constructor
          · exact mul_pos hb.1 hfrac0
          · calc scale.getD m 0 * (nd / (nd + 1)) ≤ 1 * (nd / (nd + 1)) := by
                  exact mul_le_mul_of_nonneg_right hb.2 (le_of_lt hfrac0)
              _ = nd / (nd + 1) := one_mul _
              _ ≤ 1 := le_of_lt hfrac1
    · subst hm1
      rw [htop]
      constructor
      · exact div_pos zero_lt_one hndp
      · rw [div_le_one hndp]
        linarith
    · rw [hbeyond m hm1]
      exact hinv m hm
  · rw [hupd, applyDropLoop_length, List.length_set]

/-- Witness for C9 at a single-stage model with an all-zero binomial draw
(forcing the fallback drop of stage 0). -/
theorem claim_C9_dropout_witness :
    1 ≤ (sample_binomial_plus_one [false] 0).2 ∧
    (update_with_dropout 1 (fun _ => [0]) 1 0 [1, 1] [false] 0).1.getD 1 0 = 1 / 2 := by
  have h := claim_C9_dropout 1 (fun _ => [0]) 1 0 [1, 1] [false] 0 rfl
    (by decide) (by decide) (by decide)
  refine ⟨h.1, ?_⟩
  have h2 := h.2.2.1
  rw [show (sample_binomial_plus_one [false] 0).2 = 1 from rfl] at h2
  rw [h2]
  norm_num

/-- C5 (amended): on every input with at least two samples, at least one
event, and at least one comparable pair, `concordance_index_censored` returns
successfully; the cindex lies in [0, 1] and equals
`(concordant + tied_risk/2) / comparable pairs`; pairs within `tied_tol` count
half; `concordant + discordant + tied_risk` equals the number of comparable
pairs; event-event pairs tied on time are excluded from the comparable pairs —
but `tied_time` reports the number of comparable event-censored pairs sharing
a time (the count the source accumulates), not the excluded event-event
pairs. -/
theorem claim_C5_concordance {n : ℕ} (ev : Fin n → Bool) (tm est : Fin n → ℚ)
    (tol : ℚ) (h2 : 2 ≤ n) (hev : ∃ i, ev i = true)
    (hcomp : 1 ≤ comparableTotal ev tm) :
    concordance_index_censored ev tm est tol =
      Except.ok (cindexQ ev tm est tol, concordantTotal ev tm est tol,
        discordantTotal ev tm est tol, tiedRiskTotal ev tm est tol,
        tiedTimeCount ev tm) ∧
    0 ≤ cindexQ ev tm est tol ∧ cindexQ ev tm est tol ≤ 1 ∧
    cindexQ ev tm est tol =
      ((concordantTotal ev tm est tol : ℚ) + (tiedRiskTotal ev tm est tol : ℚ) / 2) /
        (comparableTotal ev tm : ℚ) ∧
    concordantTotal ev tm est tol + discordantTotal ev tm est tol +
      tiedRiskTotal ev tm est tol = comparableTotal ev tm ∧
    (∀ i k : Fin n, k ∈ comparableTo ev tm i → ¬(tm k = tm i ∧ ev k = true)) := by
  have hnum : numeratorQ ev tm est tol =
      (concordantTotal ev tm est tol : ℚ) + (tiedRiskTotal ev tm est tol : ℚ) / 2 := by
    unfold numeratorQ concordantTotal tiedRiskTotal
    rw [Finset.sum_add_distrib, ← Finset.sum_div]
    push_cast
    ring
  have hden : denominatorQ ev tm = (comparableTotal ev tm : ℚ) := by
    unfold denominatorQ comparableTotal
    push_cast
    ring
  have hdenpos : (0 : ℚ) < (comparableTotal ev tm : ℚ) := by
    exact_mod_cast Nat.lt_of_lt_of_le Nat.zero_lt_one hcomp
  have hform : cindexQ ev tm est tol =
      ((concordantTotal ev tm est tol : ℚ) + (tiedRiskTotal ev tm est tol : ℚ) / 2) /
        (comparableTotal ev tm : ℚ) := by
    unfold cindexQ
    rw [hnum, hden]
  have hnn : (0 : ℚ) ≤ numeratorQ ev tm est tol := by
    unfold numeratorQ
    apply Finset.sum_nonneg
    intro i _
    positivity
  have hub : numeratorQ ev tm est tol ≤ denominatorQ ev tm := by
    unfold numeratorQ denominatorQ
    apply Finset.sum_le_sum
    intro i _
    have hle := nCon_add_nTies_le ev tm est tol i
    have hle2 : (nConcordant ev tm est tol i : ℚ) + (nTiedRisk ev tm est tol i : ℚ) ≤
        ((comparableTo ev tm i).card : ℚ) := by
      exact_mod_cast hle
    have hb : (0 : ℚ) ≤ (nTiedRisk ev tm est tol i : ℚ) := Nat.cast_nonneg _
    linarith
  have hsum : concordantTotal ev tm est tol + discordantTotal ev tm est tol +
      tiedRiskTotal ev tm est tol = comparableTotal ev tm := by
    unfold concordantTotal discordantTotal tiedRiskTotal comparableTotal
    rw [← Finset.sum_add_distrib, ← Finset.sum_add_distrib]
    apply Finset.sum_congr rfl
    intro i _
    have hle := nCon_add_nTies_le ev tm est tol i
    unfold nDiscordant
    omega
  refine ⟨?_, ?_, ?_, hform, hsum, ?_⟩
  · unfold concordance_index_censored
    rw [if_neg (by omega), if_neg (not_not_intro hev)]
  · rw [hform]
    apply div_nonneg _ (le_of_lt hdenpos)
    rw [← hnum]
    exact hnn
  · rw [hform, div_le_one hdenpos, ← hnum, ← hden]
    exact hub
  · intro i k hk
    unfold comparableTo at hk
    by_cases hevi : ev i = true
    · rw [if_pos hevi] at hk
      have hmem := Finset.mem_filter.mp hk
      rintro ⟨hteq, hevk⟩
      rcases hmem.2 with hlt | ⟨_, hfalse⟩
      · rw [hteq] at hlt
        exact lt_irrefl _ hlt
      · rw [hevk] at hfalse
        exact Bool.noConfusion hfalse
    · rw [if_neg hevi] at hk
      exact absurd hk (Finset.not_mem_empty k)

/-- Witness for C5 (amended) at dataset A (three samples, one censored, one
tied time, two comparable pairs). -/
theorem claim_C5_concordance_witness :
    0 ≤ cindexQ evA tmA estA 0 ∧ cindexQ evA tmA estA 0 ≤ 1 ∧
    concordantTotal evA tmA estA 0 + discordantTotal evA tmA estA 0 +
      tiedRiskTotal evA tmA estA 0 = comparableTotal evA tmA := by
  have h := claim_C5_concordance evA tmA estA 0 (by decide) ⟨0, by decide⟩ (by decide)
  exact ⟨h.2.1, h.2.2.1, h.2.2.2.2.1⟩

/-- C5 counterexample: dataset B has exactly one pair of two events tied on
time (samples 0 and 1 at time 5), yet `concordance_index_censored` returns
`tied_time = 0` — the returned `tied_time` does not report the excluded
event-event tied pairs (it counts event-censored tied comparable pairs); the
claim's parenthetical is false. -/
theorem claim_C5_tied_time_counterexample :
    concordance_index_censored evB tmB estB 0 =
      Except.ok (cindexQ evB tmB estB 0, concordantTotal evB tmB estB 0,
        discordantTotal evB tmB estB 0, tiedRiskTotal evB tmB estB 0, 0) ∧
    claimTiedTime evB tmB = 1 ∧ (0 : ℕ) ≠ 1 := by
  refine ⟨?_, by decide, by decide⟩
  unfold concordance_index_censored
  rw [if_neg (by decide), if_neg (by decide)]
  rw [show tiedTimeCount evB tmB = 0 from by decide]
